import Mathlib

/-!
# The MEX driver of quickshift (`toolbox/quickshift/vl_quickshift.c`)

A shallow embedding of `mexFunction`, the bridge between the host environment
and the quickshift library, and the properties its specification states.

Conventions of the embedding:

* a C `double` is a `Float`; the driver only multiplies one by `3`, converts an
  `int` to one, and copies them;
* dimensions and counts reach the driver as non-negative C `int`s and are
  naturals here. An `int` has 32 bits and a `size_t` 64: the `int` product
  `N1*N2` of line 139 is taken in two's complement (`wrapInt`; C leaves the
  overflow undefined, compiled code wraps) and the `size_t` product
  `sizeof(double)*N1*N2` of lines 140-141 modulo `2^64` (`wrapSize`);
* the host and the quickshift library are not part of the file: the host's
  arrays, output slots, allocator and console, and the library's call history,
  are fields of an explicit `World` that every effectful statement transforms;
  what the library answers is a parameter (`VlQSLib`);
* `mexErrMsgTxt` does not return: the call ends there, with `Abort.error` and
  the world as it is;
* a read or a write outside an object is undefined in C; the embedding ends the
  call there with `Abort.undefined`.
-/

namespace VlQuickshift

/-! ## The host's arrays -/

/-- Class identifier of a host array, as reported by `mxGetClassID`. -/
inductive mxClassID
  | mxUNKNOWN_CLASS | mxCELL_CLASS | mxSTRUCT_CLASS | mxLOGICAL_CLASS | mxCHAR_CLASS
  | mxVOID_CLASS | mxDOUBLE_CLASS | mxSINGLE_CLASS | mxINT8_CLASS | mxUINT8_CLASS
  | mxINT16_CLASS | mxUINT16_CLASS | mxINT32_CLASS | mxUINT32_CLASS | mxINT64_CLASS
  | mxUINT64_CLASS | mxFUNCTION_CLASS
  deriving DecidableEq, Repr

/-- Complexity flag of a host array (`mxREAL` is the one the driver allocates with). -/
inductive mxComplexity
  | mxREAL | mxCOMPLEX
  deriving DecidableEq, Repr

/-- A host array. The host guarantees at least two dimensions, `d0` and `d1`;
`more` holds the third and later ones. `pr` is the data area as seen through
`mxGetPr`, a pointer to doubles; `text` is the content of a character array. -/
structure mxArray where
  classID : mxClassID
  complexity : mxComplexity
  d0 : Nat
  d1 : Nat
  more : List Nat
  pr : List Float
  text : String

def mxGetNumberOfDimensions (a : mxArray) : Nat := 2 + a.more.length

def mxGetDimensions (a : mxArray) : List Nat := a.d0 :: a.d1 :: a.more

def mxGetClassID (a : mxArray) : mxClassID := a.classID

def mxGetPr (a : mxArray) : List Float := a.pr

/-! ## The world the driver acts on -/

/-- One argument of a `mexPrintf` call. -/
inductive PrintfArg
  | int (n : Nat)
  | str (s : String)
  | dbl (x : Float)

/-- One call received by the quickshift library, with its arguments; `q` is the
handle (a `VlQS *`). -/
inductive QSCall
  | new (image : List Float) (height width channels : Nat)
  | set_sigma (q : Nat) (sigma : Float)
  | set_tau (q : Nat) (tau : Float)
  | set_medoid (q : Nat) (medoid : Nat)
  | process (q : Nat)
  | get_parents (q : Nat)
  | get_dists (q : Nat)
  | get_density (q : Nat)
  | delete (q : Nat)

/-- The quickshift library, a parameter of the development. Each answer is a
function of the calls the library has received so far, the answered call last:
the handle `vl_quickshift_new` returns and the buffers the three accessors
return (cell `i` of a buffer is `p[i]`). -/
structure VlQSLib where
  handle : List QSCall → Nat
  parents : List QSCall → Nat → Int
  dists : List QSCall → Nat → Float
  density : List QSCall → Nat → Float

/-- Everything outside the driver that it can change: the arrays created with
`mxCreateDoubleMatrix` (by address, `brk` being the next fresh address), the
output slots `out[]` (each holding the address assigned to it), the lines
handed to `mexPrintf` and the calls made on the library, oldest first. -/
structure World where
  heap : Nat → Option mxArray
  brk : Nat
  out : Nat → Option Nat
  printed : List (String × List PrintfArg)
  calls : List QSCall

/-- How a call ends when it does not return: `error` is `mexErrMsgTxt`,
`undefined` an access outside an object, `exhausted` an option loop that was
still running when its iteration budget ran out. -/
inductive Abort
  | error (msg : String)
  | undefined
  | exhausted
  deriving DecidableEq, Repr

/-- The call `mxCreateDoubleMatrix(m, n, flag)`: a fresh zero-filled double
matrix; the result is its address and the world in which it exists. -/
def mxCreateDoubleMatrix (m n : Nat) (flag : mxComplexity) (w : World) : Nat × World :=
  (w.brk,
   { w with
     heap := fun a =>
       if a = w.brk then
         some { classID := mxClassID.mxDOUBLE_CLASS, complexity := flag, d0 := m, d1 := n,
                more := [], pr := List.replicate (m * n) 0, text := "" }
       else w.heap a
     brk := w.brk + 1 })

/-- The assignment `out[slot] = a`. -/
def assignOut (slot a : Nat) (w : World) : World :=
  { w with out := fun s => if s = slot then some a else w.out s }

/-- The store `p[i] = v` through the data pointer of the created array at `p`. -/
def storeDouble (p i : Nat) (v : Float) (w : World) : Option World :=
  match w.heap p with
  | none => none
  | some arr =>
    if i < arr.pr.length then
      some { w with heap := fun a => if a = p then some { arr with pr := arr.pr.set i v } else w.heap a }
    else none

def sizeof_double : Nat := 8

/-- The largest `int`. -/
def INT_MAX : Nat := 2147483647

/-- The value an `int` holds when the expression it is computed from has the
mathematical value `x`: the 32-bit two's complement residue of `x`. -/
@[irreducible]
def wrapInt (x : Int) : Int :=
  (x + 2147483648) % 4294967296 - 2147483648

/-- The value a `size_t` holds when the expression it is computed from has the
mathematical value `x`: `x` modulo `2^64`. -/
@[irreducible]
def wrapSize (x : Nat) : Nat :=
  x % 18446744073709551616

/-- The call `memcpy(dst, src, nbytes)` from a buffer of doubles into the data
of the created array at `dst`. -/
def memcpy (dst : Nat) (src : Nat → Float) (nbytes : Nat) (w : World) : Option World :=
  match w.heap dst with
  | none => none
  | some arr =>
    if nbytes / sizeof_double ≤ arr.pr.length then
      some { w with
             heap := fun a =>
               if a = dst then
                 some { arr with
                        pr := (List.range (nbytes / sizeof_double)).map src
                                ++ arr.pr.drop (nbytes / sizeof_double) }
               else w.heap a }
    else none

def mexPrintf (fmt : String) (args : List PrintfArg) (w : World) : World :=
  { w with printed := w.printed ++ [(fmt, args)] }

/-- A library call that returns nothing. -/
def libCall (c : QSCall) (w : World) : World :=
  { w with calls := w.calls ++ [c] }

def vl_quickshift_new (lib : VlQSLib) (image : List Float) (height width channels : Nat)
    (w : World) : Nat × World :=
  let w1 := libCall (QSCall.new image height width channels) w
  (lib.handle w1.calls, w1)

def vl_quickshift_get_parents (lib : VlQSLib) (q : Nat) (w : World) : (Nat → Int) × World :=
  let w1 := libCall (QSCall.get_parents q) w
  (lib.parents w1.calls, w1)

def vl_quickshift_get_dists (lib : VlQSLib) (q : Nat) (w : World) : (Nat → Float) × World :=
  let w1 := libCall (QSCall.get_dists q) w
  (lib.dists w1.calls, w1)

def vl_quickshift_get_density (lib : VlQSLib) (q : Nat) (w : World) : (Nat → Float) × World :=
  let w1 := libCall (QSCall.get_density q) w
  (lib.density w1.calls, w1)

/-! ## Options (lines 13-22) -/

abbrev opt_medoid : Int := 0
abbrev opt_verbose : Int := 1

/-- Modelled from the spec: the record type `uMexOption` of the option table is
declared in `mexutils.h`, which is not among the sources. Its three fields
follow the table's initialisers: the name, whether the option takes a value
(the spec: `Medoid` and `Verbose` take none), and the enum value. -/
structure uMexOption where
  name : String
  has_arg : Nat
  val : Int

/-- The option table (lines 18-22); the terminating `{0, 0, 0}` is the end of
the list. -/
def options : List uMexOption :=
  [ { name := "Medoid", has_arg := 0, val := opt_medoid },
    { name := "Verbose", has_arg := 0, val := opt_verbose } ]

/-- Modelled from the spec: `uNextOption` is defined in `mexutils.h`, which is
not among the sources. By the spec the named options follow the positional
inputs and are parsed from the fixed name-to-enum table, and malformed input
terminates the call. So: when no argument is left at position `next` the
result is negative; otherwise the argument there must be a character array
whose text is a name of the table as written there, the position advances
past it (and past its value when the option takes one, which is handed back),
and the result is the enum value of that name; anything else is a fatal
error. -/
def uNextOption (args : List mxArray) (nargs : Nat) (table : List uMexOption) (next : Nat) :
    Except Abort (Int × Nat × Option mxArray) :=
  if next ≥ nargs then Except.ok (-1, next, none) else
  match args[next]? with
  | none => Except.error Abort.undefined
  | some a =>
    if a.classID ≠ mxClassID.mxCHAR_CLASS then
      Except.error (Abort.error "The option name is not a string.")
    else
      match table.find? (fun o => o.name == a.text) with
      | none => Except.error (Abort.error "Unknown option.")
      | some o =>
        if o.has_arg = 0 then Except.ok (o.val, next + 1, none)
        else if next + 1 ≥ nargs then
          Except.error (Abort.error "The option requires an argument.")
        else Except.ok (o.val, next + 2, args[next + 1]?)

/-! ## The driver (lines 28-144) -/

abbrev IN_I : Nat := 0
abbrev IN_SIGMA : Nat := 1
abbrev IN_TAU : Nat := 2
abbrev IN_END : Nat := 3

abbrev OUT_PARENTS : Nat := 0
abbrev OUT_DISTS : Nat := 1
abbrev OUT_DENSITY : Nat := 2

/-- The read `*mxGetPr(in[k])`: the first double of the data of argument `k`. -/
def derefPr (ins : List mxArray) (k : Nat) : Option Float :=
  match ins[k]? with
  | none => none
  | some a => (mxGetPr a).head?

/-- Lines 100-109: the loop over `uNextOption`, started with `next`, `medoid`
and `verb` as they stand; `fuel` bounds the number of iterations. The result is
the final `medoid` and `verb`. -/
def optionLoop (ins : List mxArray) (nin : Nat) :
    Nat → Nat → Nat → Nat → Except Abort (Nat × Nat)
  | 0, _, _, _ => Except.error Abort.exhausted
  | fuel + 1, next, medoid, verb =>
    match uNextOption ins nin options next with
    | Except.error e => Except.error e
    | Except.ok (opt, next1, _) =>
      if opt ≥ 0 then
        if opt = opt_medoid then optionLoop ins nin fuel next1 1 verb
        else if opt = opt_verbose then optionLoop ins nin fuel next1 medoid (verb + 1)
        else optionLoop ins nin fuel next1 medoid verb
      else Except.ok (medoid, verb)

/-- Line 139: `for(i = 0; i < N1*N2; i++) parents[i] = parentsi[i];`, where
`bound` is the `int` the product `N1*N2` gives. The `int i` starts at 0 and
takes the indices below the bound in increasing order (none when the bound is
not positive); it stays below the bound, so `i++` does not overflow. -/
def copyParents (parents : Nat) (parentsi : Nat → Int) (bound : Int) (w : World) : Option World :=
  (List.range bound.toNat).foldlM
    (fun w1 i => storeDouble parents i (Float.ofInt (parentsi i)) w1) w

/-- Lines 121-126. -/
def printVerbose (verb N1 N2 K medoid : Nat) (sigma tau : Float) (w : World) : World :=
  if verb ≠ 0 then
    let w1 := mexPrintf "quickshift: [N1,N2,K]: [%d,%d,%d]\n"
                [PrintfArg.int N1, PrintfArg.int N2, PrintfArg.int K] w
    let w2 := mexPrintf "quickshift: type: %s\n"
                [PrintfArg.str (if medoid ≠ 0 then "medoid" else "quick")] w1
    let w3 := mexPrintf "quickshift: sigma:   %g\n" [PrintfArg.dbl sigma] w2
    mexPrintf "quickshift: tau:     %g\n" [PrintfArg.dbl tau] w3
  else w

/-- The locals of `mexFunction` that are set when the option loop is over
(line 109) and read by the rest of the function. -/
structure Locals where
  I : List Float
  N1 : Nat
  N2 : Nat
  K : Nat
  sigma : Float
  tau : Float
  medoid : Nat
  verb : Nat

/-- Lines 111-144: create the outputs, print when verbose, do the job, copy
the results, delete the object. The two products of the copying statements
come in as they are computed: `bound` is the `int` that `N1*N2` gives in line
139, `nbytes` the `size_t` that `sizeof(double)*N1*N2` gives in lines 140 and
141. -/
def doJobWith (lib : VlQSLib) (p : Locals) (bound : Int) (nbytes : Nat) (w : World) :
    World × Option Abort :=
  let (parents, w1) := mxCreateDoubleMatrix p.N1 p.N2 mxComplexity.mxREAL w
  let w2 := assignOut OUT_PARENTS parents w1
  let (dists, w3) := mxCreateDoubleMatrix p.N1 p.N2 mxComplexity.mxREAL w2
  let w4 := assignOut OUT_DISTS dists w3
  let (density, w5) := mxCreateDoubleMatrix p.N1 p.N2 mxComplexity.mxREAL w4
  let w6 := assignOut OUT_DENSITY density w5
  let w7 := printVerbose p.verb p.N1 p.N2 p.K p.medoid p.sigma p.tau w6
  let (q, w8) := vl_quickshift_new lib p.I p.N1 p.N2 p.K w7
  let w9 := libCall (QSCall.set_sigma q p.sigma) w8
  let w10 := libCall (QSCall.set_tau q p.tau) w9
  let w11 := libCall (QSCall.set_medoid q p.medoid) w10
  let w12 := libCall (QSCall.process q) w11
  let (parentsi, w13) := vl_quickshift_get_parents lib q w12
  match copyParents parents parentsi bound w13 with
  | none => (w13, some Abort.undefined)
  | some w14 =>
    let (srcDists, w15) := vl_quickshift_get_dists lib q w14
    match memcpy dists srcDists nbytes w15 with
    | none => (w15, some Abort.undefined)
    | some w16 =>
      let (srcDensity, w17) := vl_quickshift_get_density lib q w16
      match memcpy density srcDensity nbytes w17 with
      | none => (w17, some Abort.undefined)
      | some w18 => (libCall (QSCall.delete q) w18, none)

/-- Lines 111-144, with the products `N1*N2` (an `int`) and
`sizeof(double)*N1*N2` (a `size_t`, formed from the left) as the machine
computes them. -/
def doJob (lib : VlQSLib) (p : Locals) (w : World) : World × Option Abort :=
  doJobWith lib p (wrapInt ((p.N1 : Int) * (p.N2 : Int)))
    (wrapSize (wrapSize (sizeof_double * p.N1) * p.N2)) w

/-- Lines 90-109: take the dimensions and the scalar parameters, then scan the
options. The loop gets `nin + 1` iterations, more than it can use
(`optionLoop_eq_scan`). -/
def extractParameters (ins : List mxArray) (img : mxArray) : Except Abort Locals :=
  let nin := ins.length
  let ndims := mxGetNumberOfDimensions img
  let dims := mxGetDimensions img
  let N1 := dims.getD 0 0
  let N2 := dims.getD 1 0
  let K := if ndims = 3 then dims.getD 2 0 else 1
  let I := mxGetPr img
  match derefPr ins IN_SIGMA with
  | none => Except.error Abort.undefined
  | some sigma =>
    match (if nin > 2 then derefPr ins IN_TAU else some (3 * sigma)) with
    | none => Except.error Abort.undefined
    | some tau =>
      match optionLoop ins nin (nin + 1) IN_END 0 0 with
      | Except.error e => Except.error e
      | Except.ok (medoid, verb) =>
        Except.ok { I := I, N1 := N1, N2 := N2, K := K, sigma := sigma, tau := tau,
                    medoid := medoid, verb := verb }

/-- Lines 71-88: the checks on the arguments; the result is the error of the
first check that fails, or the image when all pass. -/
def checkArguments (nout : Nat) (ins : List mxArray) : Except Abort mxArray :=
  let nin := ins.length
  if nin < 2 then Except.error (Abort.error "At least two arguments.") else
  if nout > 3 then Except.error (Abort.error "At most three output arguments.") else
  match ins[IN_I]? with
  | none => Except.error Abort.undefined
  | some img =>
    if mxGetNumberOfDimensions img > 3 then
      Except.error (Abort.error "I must have at most 3 dimensions.")
    else if mxGetClassID img ≠ mxClassID.mxDOUBLE_CLASS then
      Except.error (Abort.error "I must be DOUBLE.")
    else Except.ok img

/-- Lines 71-109, everything that comes before the first effect: the checks,
then the parameters and the options. -/
def resolve (nout : Nat) (ins : List mxArray) : Except Abort Locals :=
  match checkArguments nout ins with
  | Except.error e => Except.error e
  | Except.ok img => extractParameters ins img

/-- The MEX entry point (lines 28-144): the world after the call and how the
call ended (`none`: it returned). -/
def mexFunction (lib : VlQSLib) (nout : Nat) (ins : List mxArray) (w : World) :
    World × Option Abort :=
  match checkArguments nout ins with
  | Except.error e => (w, some e)
  | Except.ok img =>
    match extractParameters ins img with
    | Except.error e => (w, some e)
    | Except.ok p => doJob lib p w

/-! ## Observations used to state the properties -/

/-- A call is accepted when nothing ends it before the job: the checks pass,
sigma and tau are read and every named option is recognised; `p` holds the
locals as resolved. These are the calls that return (`returns_iff_accepted`). -/
def Accepted (nout : Nat) (ins : List mxArray) (p : Locals) : Prop :=
  resolve nout ins = Except.ok p

/-- The library calls made during the call, oldest first. -/
def trace (lib : VlQSLib) (nout : Nat) (ins : List mxArray) (w : World) : List QSCall :=
  (mexFunction lib nout ins w).1.calls.drop w.calls.length

/-- The lines printed during the call. -/
def printedBy (lib : VlQSLib) (nout : Nat) (ins : List mxArray) (w : World) :
    List (String × List PrintfArg) :=
  (mexFunction lib nout ins w).1.printed.drop w.printed.length

/-- The array that output slot `slot` refers to after the call. -/
def output (lib : VlQSLib) (nout : Nat) (ins : List mxArray) (w : World) (slot : Nat) :
    Option mxArray :=
  match (mexFunction lib nout ins w).1.out slot with
  | none => none
  | some a => (mexFunction lib nout ins w).1.heap a

/-- The four conditions of the checks of lines 71-88: too few inputs, too many
outputs, an image of more than three dimensions, an image whose class is not
double. -/
def InvalidArguments (nout : Nat) (ins : List mxArray) : Prop :=
  ins.length < 2 ∨ nout > 3 ∨
    ∃ img, ins[IN_I]? = some img ∧
      (mxGetNumberOfDimensions img > 3 ∨ mxGetClassID img ≠ mxClassID.mxDOUBLE_CLASS)

/-- The elements of `a` are double-precision reals: the class of `a` is double
and `a` is not complex. -/
def isRealDouble (a : mxArray) : Prop :=
  mxGetClassID a = mxClassID.mxDOUBLE_CLASS ∧ a.complexity = mxComplexity.mxREAL

/-- The arguments after the positional ones, where named options are read. -/
def namedOptions (ins : List mxArray) : List mxArray := ins.drop IN_END

/-- Argument `a` is the option called `name`. -/
def isOption (name : String) (a : mxArray) : Bool :=
  a.classID == mxClassID.mxCHAR_CLASS && a.text == name

/-- Argument `a` is one of the two options of the table. -/
def recognized (a : mxArray) : Bool :=
  isOption "Medoid" a || isOption "Verbose" a

/-- The option loop as a scan of the list of arguments still to be read. -/
def scanOptions : List mxArray → Nat → Nat → Except Abort (Nat × Nat)
  | [], medoid, verb => Except.ok (medoid, verb)
  | a :: rest, medoid, verb =>
    if a.classID ≠ mxClassID.mxCHAR_CLASS then
      Except.error (Abort.error "The option name is not a string.")
    else if a.text = "Medoid" then scanOptions rest 1 verb
    else if a.text = "Verbose" then scanOptions rest medoid (verb + 1)
    else Except.error (Abort.error "Unknown option.")

/-- The four lines of the verbose report, as a function of what they report. -/
def verboseLines (N1 N2 K medoid : Nat) (sigma tau : Float) : List (String × List PrintfArg) :=
  [ ("quickshift: [N1,N2,K]: [%d,%d,%d]\n",
      [PrintfArg.int N1, PrintfArg.int N2, PrintfArg.int K]),
    ("quickshift: type: %s\n", [PrintfArg.str (if medoid ≠ 0 then "medoid" else "quick")]),
    ("quickshift: sigma:   %g\n", [PrintfArg.dbl sigma]),
    ("quickshift: tau:     %g\n", [PrintfArg.dbl tau]) ]

/-- The report of the locals `p`. -/
def report (p : Locals) : List (String × List PrintfArg) :=
  verboseLines p.N1 p.N2 p.K p.medoid p.sigma p.tau

/-- The values handed to `vl_quickshift_set_sigma`, in call order. -/
def sigmaPassed (cs : List QSCall) : List Float :=
  cs.filterMap (fun c => match c with
    | QSCall.set_sigma _ x => some x
    | _ => none)

/-- The values handed to `vl_quickshift_set_tau`, in call order. -/
def tauPassed (cs : List QSCall) : List Float :=
  cs.filterMap (fun c => match c with
    | QSCall.set_tau _ x => some x
    | _ => none)

/-- The values handed to `vl_quickshift_set_medoid`, in call order. -/
def medoidPassed (cs : List QSCall) : List Nat :=
  cs.filterMap (fun c => match c with
    | QSCall.set_medoid _ x => some x
    | _ => none)

/-- The arguments of the calls of `vl_quickshift_new`, in call order. -/
def newPassed (cs : List QSCall) : List (List Float × Nat × Nat × Nat) :=
  cs.filterMap (fun c => match c with
    | QSCall.new image height width channels => some (image, height, width, channels)
    | _ => none)

/-- The nine library calls of the job, given the handle. -/
def jobCalls (p : Locals) (q : Nat) : List QSCall :=
  [ QSCall.new p.I p.N1 p.N2 p.K, QSCall.set_sigma q p.sigma, QSCall.set_tau q p.tau,
    QSCall.set_medoid q p.medoid, QSCall.process q, QSCall.get_parents q,
    QSCall.get_dists q, QSCall.get_density q, QSCall.delete q ]

/-- A real double matrix of the given extent and data. -/
def doubleMatrix (m n : Nat) (data : List Float) : mxArray :=
  { classID := mxClassID.mxDOUBLE_CLASS, complexity := mxComplexity.mxREAL, d0 := m, d1 := n,
    more := [], pr := data, text := "" }

/-- The handle `vl_quickshift_new` returns during the job. -/
def handleOf (lib : VlQSLib) (p : Locals) (w : World) : Nat :=
  lib.handle (w.calls ++ [QSCall.new p.I p.N1 p.N2 p.K])

/-- The buffer `vl_quickshift_get_parents` returns during the job. -/
def parentsOf (lib : VlQSLib) (p : Locals) (w : World) : Nat → Int :=
  lib.parents (w.calls ++ (jobCalls p (handleOf lib p w)).take 6)

/-- The buffer `vl_quickshift_get_dists` returns during the job. -/
def distsOf (lib : VlQSLib) (p : Locals) (w : World) : Nat → Float :=
  lib.dists (w.calls ++ (jobCalls p (handleOf lib p w)).take 7)

/-- The buffer `vl_quickshift_get_density` returns during the job. -/
def densityOf (lib : VlQSLib) (p : Locals) (w : World) : Nat → Float :=
  lib.density (w.calls ++ (jobCalls p (handleOf lib p w)).take 8)

/-- The number of iterations of the copy loop of line 139. -/
def loopCount (p : Locals) : Nat :=
  (wrapInt ((p.N1 : Int) * (p.N2 : Int))).toNat

/-- The number of doubles each `memcpy` of lines 140-141 copies. -/
def memcpyCount (p : Locals) : Nat :=
  wrapSize (wrapSize (sizeof_double * p.N1) * p.N2) / sizeof_double

/-- The data of a fresh matrix of `total` elements after the first `n` have
been overwritten with `src`. -/
def copied (n total : Nat) (src : Nat → Float) : List Float :=
  (List.range n).map src ++ (List.replicate total 0).drop n

/-- The world the job leaves behind when the loop makes `c` iterations and
each `memcpy` copies `d` doubles, in closed form (`doJobWith_eq`). -/
def afterJobWith (lib : VlQSLib) (p : Locals) (c d : Nat) (w : World) : World :=
  { heap := fun a =>
      if a = w.brk then
        some (doubleMatrix p.N1 p.N2
          (copied c (p.N1 * p.N2) (fun i => Float.ofInt (parentsOf lib p w i))))
      else if a = w.brk + 1 then
        some (doubleMatrix p.N1 p.N2 (copied d (p.N1 * p.N2) (distsOf lib p w)))
      else if a = w.brk + 2 then
        some (doubleMatrix p.N1 p.N2 (copied d (p.N1 * p.N2) (densityOf lib p w)))
      else w.heap a
    brk := w.brk + 3
    out := fun s =>
      if s = OUT_PARENTS then some w.brk
      else if s = OUT_DISTS then some (w.brk + 1)
      else if s = OUT_DENSITY then some (w.brk + 2)
      else w.out s
    printed := w.printed ++ (if p.verb ≠ 0 then report p else [])
    calls := w.calls ++ jobCalls p (handleOf lib p w) }

/-- The world the job leaves behind (`doJob_eq`). -/
def afterJob (lib : VlQSLib) (p : Locals) (w : World) : World :=
  afterJobWith lib p (loopCount p) (memcpyCount p) w

/-! ## Sample calls -/

/-- A 2-by-3 real double image. -/
def image2D : mxArray :=
  doubleMatrix 2 3 [0.5, 0.25, 0.75, 1.0, 0.0, 0.5]

/-- A 2-by-3 image with 2 channels. -/
def image3D : mxArray :=
  { doubleMatrix 2 3 (List.replicate 12 0.5) with more := [2] }

/-- A 2-by-3-by-2-by-2 array. -/
def image4D : mxArray :=
  { doubleMatrix 2 3 (List.replicate 24 0.5) with more := [2, 2] }

/-- A 1-by-1 real double array. -/
def scalar (x : Float) : mxArray :=
  doubleMatrix 1 1 [x]

/-- A character row vector holding `name`; `raw` is what its data area gives
when it is read through a pointer to doubles. -/
def charArray (name : String) (raw : List Float) : mxArray :=
  { classID := mxClassID.mxCHAR_CLASS, complexity := mxComplexity.mxREAL, d0 := 1,
    d1 := name.length, more := [], pr := raw, text := name }

/-- A library that answers with handle 7 and fixed buffers. -/
def sampleLib : VlQSLib :=
  { handle := fun _ => 7
    parents := fun _ i => (i : Int) + 1
    dists := fun _ _ => 0.5
    density := fun _ _ => 2.0 }

/-- A world in which nothing has happened yet. -/
def emptyWorld : World :=
  { heap := fun _ => none, brk := 0, out := fun _ => none, printed := [], calls := [] }

/-- The call `vl_quickshift(I, 2)` with one output. -/
def callTwoInputs : List mxArray := [image2D, scalar 2.0]

/-- The call `vl_quickshift(I, 2, 5, 'Verbose', 'Medoid', 'Verbose')` on the
two-channel image. -/
def callWithOptions : List mxArray :=
  [image3D, scalar 2.0, scalar 5.0, charArray "Verbose" [], charArray "Medoid" [],
   charArray "Verbose" []]

/-- The call `vl_quickshift(I, 2, 'Medoid')`: an option name directly after
sigma. The data area of the name, read as doubles, starts with `1e-300`. -/
def callOptionAfterSigma : List mxArray :=
  [image2D, scalar 2.0, charArray "Medoid" [1e-300]]

/-- The locals `callTwoInputs` resolves to. -/
def localsTwoInputs : Locals :=
  { I := mxGetPr image2D, N1 := 2, N2 := 3, K := 1, sigma := 2.0, tau := 3 * 2.0,
    medoid := 0, verb := 0 }

/-- The locals `callWithOptions` resolves to. -/
def localsWithOptions : Locals :=
  { I := mxGetPr image3D, N1 := 2, N2 := 3, K := 2, sigma := 2.0, tau := 5.0,
    medoid := 1, verb := 2 }

/-- The locals `callOptionAfterSigma` resolves to. -/
def localsOptionAfterSigma : Locals :=
  { I := mxGetPr image2D, N1 := 2, N2 := 3, K := 1, sigma := 2.0, tau := 1e-300,
    medoid := 0, verb := 0 }

/-- A 2-by-3 complex double image; `pr` is its real part. -/
def imageComplex : mxArray :=
  { image2D with complexity := mxComplexity.mxCOMPLEX }

/-- The call `vl_quickshift(I, 2)` on the complex image. -/
def callComplex : List mxArray := [imageComplex, scalar 2.0]

/-- An empty 65536-by-32768-by-0 real double array: no data, and `2^31` for
the product of its first two dimensions. -/
def imageHuge : mxArray :=
  { doubleMatrix 65536 32768 [] with more := [0] }

/-- The call `vl_quickshift(I, 2)` on the empty 65536-by-32768-by-0 image. -/
def callHuge : List mxArray := [imageHuge, scalar 2.0]

/-- The locals `callHuge` resolves to. -/
def localsHuge : Locals :=
  { I := [], N1 := 65536, N2 := 32768, K := 0, sigma := 2.0, tau := 3 * 2.0,
    medoid := 0, verb := 0 }

/-- The call `vl_quickshift(I, 2)` on the 4-D array. -/
def callFourD : List mxArray := [image4D, scalar 2.0]

/-! ## Lemmas on the stages -/

theorem uNextOption_done (ins : List mxArray) (next : Nat) (h : ins.length ≤ next) :
    uNextOption ins ins.length options next = Except.ok (-1, next, none) := by
  simp [uNextOption, h]

theorem uNextOption_step (ins : List mxArray) (next : Nat) (a : mxArray)
    (h : ins[next]? = some a) :
    uNextOption ins ins.length options next =
      if a.classID ≠ mxClassID.mxCHAR_CLASS then
        Except.error (Abort.error "The option name is not a string.")
      else if a.text = "Medoid" then Except.ok (opt_medoid, next + 1, none)
      else if a.text = "Verbose" then Except.ok (opt_verbose, next + 1, none)
      else Except.error (Abort.error "Unknown option.") := by
  have hlt : next < ins.length := by
    rcases Nat.lt_or_ge next ins.length with h1 | h1
    · exact h1
    · rw [List.getElem?_eq_none h1] at h; cases h
  have hge : ¬ next ≥ ins.length := by omega
  by_cases hc : a.classID = mxClassID.mxCHAR_CLASS
  · by_cases hm : a.text = "Medoid"
    · simp [uNextOption, hge, h, hc, hm, options, List.find?]
    · by_cases hv : a.text = "Verbose"
      · simp [uNextOption, hge, h, hc, hv, options, List.find?]
      · have hm1 : ¬ "Medoid" = a.text := fun e => hm e.symm
        have hv1 : ¬ "Verbose" = a.text := fun e => hv e.symm
        have hm2 : ("Medoid" == a.text) = false := by simp [hm1]
        have hv2 : ("Verbose" == a.text) = false := by simp [hv1]
        simp [uNextOption, hge, h, hc, hm, hv, hm2, hv2, options, List.find?]
  · simp [uNextOption, hge, h, hc]

/-- The option loop never uses up its budget: with more iterations than
arguments left it computes the scan of those arguments. -/
theorem optionLoop_eq_scan (ins : List mxArray) :
    ∀ (fuel next medoid verb : Nat), ins.length - next < fuel →
      optionLoop ins ins.length fuel next medoid verb
        = scanOptions (ins.drop next) medoid verb := by
  intro fuel
  induction fuel with
  | zero =>
    intro next medoid verb h
    omega
  | succ fuel ih =>
    intro next medoid verb h
    rcases Nat.lt_or_ge next ins.length with hlt | hge
    · have hget : ins[next]? = some ins[next] := List.getElem?_eq_getElem hlt
      have hdrop : ins.drop next = ins[next] :: ins.drop (next + 1) :=
        List.drop_eq_getElem_cons hlt
      rw [hdrop]
      simp only [optionLoop, scanOptions, uNextOption_step ins next _ hget]
      by_cases hc : ins[next].classID = mxClassID.mxCHAR_CLASS
      · by_cases hm : ins[next].text = "Medoid"
        · simp [hc, hm]
          exact ih (next + 1) 1 verb (by omega)
        · by_cases hv : ins[next].text = "Verbose"
          · simp [hc, hv]
            exact ih (next + 1) medoid (verb + 1) (by omega)
          · simp [hc, hm, hv]
      · simp [hc]
    · rw [List.drop_eq_nil_of_le hge]
      simp [optionLoop, scanOptions, uNextOption_done ins next hge]

theorem scanOptions_ok_iff (l : List mxArray) :
    ∀ (medoid verb m v : Nat),
      scanOptions l medoid verb = Except.ok (m, v) ↔
        (∀ a ∈ l, recognized a = true) ∧
        m = (if l.any (isOption "Medoid") = true then 1 else medoid) ∧
        v = verb + l.countP (isOption "Verbose") := by
  induction l with
  | nil =>
    intro medoid verb m v
    simp [scanOptions]
    constructor
    · rintro ⟨h1, h2⟩; exact ⟨h1.symm, h2.symm⟩
    · rintro ⟨h1, h2⟩; exact ⟨h1.symm, h2.symm⟩
  | cons a rest ih =>
    intro medoid verb m v
    by_cases hc : a.classID = mxClassID.mxCHAR_CLASS
    · by_cases hm : a.text = "Medoid"
      · have hv : ¬ a.text = "Verbose" := by rw [hm]; decide
        simp [scanOptions, hc, hm, ih, recognized, isOption, List.countP_cons]
      · by_cases hv : a.text = "Verbose"
        · simp [scanOptions, hc, hv, ih, recognized, isOption, List.countP_cons]
          intro _ _
          constructor
          · intro h; omega
          · intro h; omega
        · simp [scanOptions, hc, hm, hv, recognized, isOption]
    · simp [scanOptions, hc, recognized, isOption]

/-- The copy loop of line 139 on an array that has room for it: every store is
inside the array, and afterwards the first `n` cells hold the converted
integers while the cells from `n` on are as before. -/
theorem copyParents_eq (p : Nat) (f : Nat → Int) (w : World) (arr : mxArray)
    (h : w.heap p = some arr) :
    ∀ n : Nat, n ≤ arr.pr.length →
      (List.range n).foldlM (fun w1 i => storeDouble p i (Float.ofInt (f i)) w1) w =
        some { w with
               heap := fun a =>
                 if a = p then
                   some { arr with
                          pr := (List.range n).map (fun i => Float.ofInt (f i)) ++ arr.pr.drop n }
                 else w.heap a } := by
  intro n
  induction n with
  | zero =>
    intro _
    have hw : (fun a => if a = p then some { arr with pr := arr.pr } else w.heap a) = w.heap := by
      funext a
      by_cases ha : a = p
      · simp [ha, h]
      · simp [ha]
    simp [hw]
  | succ n ih =>
    intro hn
    have ih1 := ih (by omega)
    rw [List.range_succ, List.foldlM_append, ih1]
    have hlen : ((List.range n).map (fun i => Float.ofInt (f i))).length = n := by simp
    have hdrop : arr.pr.drop n = arr.pr[n] :: arr.pr.drop (n + 1) :=
      List.drop_eq_getElem_cons (by omega)
    simp only [Option.some_bind, Option.bind_eq_bind, List.foldlM_cons, List.foldlM_nil,
      storeDouble, if_true]
    have hin : n < ((List.range n).map (fun i => Float.ofInt (f i)) ++ arr.pr.drop n).length := by
      simp; omega
    simp only [hin, if_true]
    simp only [Option.bind_some, pure]
    congr 2
    funext a
    by_cases ha : a = p
    · simp only [ha, if_true]
      congr 2
      rw [List.set_append_right _ _ (by rw [hlen]), hlen, Nat.sub_self, hdrop]
      simp only [List.map_append, List.map_cons, List.map_nil, List.append_assoc,
        List.set_cons_zero, List.singleton_append]
    · simp [ha]

theorem memcpy_eq (dst : Nat) (src : Nat → Float) (nbytes : Nat) (w : World) (arr : mxArray)
    (h : w.heap dst = some arr) (hn : nbytes / sizeof_double ≤ arr.pr.length) :
    memcpy dst src nbytes w =
      some { w with
             heap := fun a =>
               if a = dst then
                 some { arr with
                        pr := (List.range (nbytes / sizeof_double)).map src
                                ++ arr.pr.drop (nbytes / sizeof_double) }
               else w.heap a } := by
  simp [memcpy, h, hn]

/-- The copy loop never runs past the matrix: the wrapped bound is at most the
element count. -/
theorem loopCount_le (p : Locals) : loopCount p ≤ p.N1 * p.N2 := by
  unfold loopCount wrapInt
  have hc : ((p.N1 : Int) * (p.N2 : Int)) = ((p.N1 * p.N2 : Nat) : Int) := by push_cast; rfl
  rw [hc]
  omega

/-- Within the range of `int` the loop bound is the element count. -/
theorem loopCount_eq (p : Locals) (h : p.N1 * p.N2 ≤ INT_MAX) : loopCount p = p.N1 * p.N2 := by
  unfold loopCount wrapInt
  unfold INT_MAX at h
  have hc : ((p.N1 : Int) * (p.N2 : Int)) = ((p.N1 * p.N2 : Nat) : Int) := by push_cast; rfl
  rw [hc]
  omega

/-- Neither `memcpy` runs past the matrix. -/
theorem memcpyCount_le (p : Locals) : memcpyCount p ≤ p.N1 * p.N2 := by
  unfold memcpyCount wrapSize sizeof_double
  have h1 : 8 * p.N1 % 18446744073709551616 * p.N2 ≤ 8 * p.N1 * p.N2 :=
    Nat.mul_le_mul_right _ (Nat.mod_le _ _)
  have h2 : 8 * p.N1 % 18446744073709551616 * p.N2 % 18446744073709551616
      ≤ 8 * p.N1 % 18446744073709551616 * p.N2 := Nat.mod_le _ _
  have h3 : 8 * p.N1 * p.N2 = 8 * (p.N1 * p.N2) := Nat.mul_assoc _ _ _
  omega

/-- Within the range of `int` each `memcpy` copies the whole matrix. -/
theorem memcpyCount_eq (p : Locals) (h : p.N1 * p.N2 ≤ INT_MAX) :
    memcpyCount p = p.N1 * p.N2 := by
  unfold memcpyCount wrapSize sizeof_double
  unfold INT_MAX at h
  rcases Nat.eq_zero_or_pos p.N2 with h0 | h0
  · simp [h0]
  · have h1 : p.N1 ≤ p.N1 * p.N2 := Nat.le_mul_of_pos_right _ h0
    have h2 : 8 * p.N1 % 18446744073709551616 = 8 * p.N1 := Nat.mod_eq_of_lt (by omega)
    have h3 : 8 * p.N1 * p.N2 = 8 * (p.N1 * p.N2) := Nat.mul_assoc _ _ _
    rw [h2, h3]
    omega

theorem copied_length (n total : Nat) (src : Nat → Float) (h : n ≤ total) :
    (copied n total src).length = total := by
  simp [copied]
  omega

theorem doubleMatrix_length (m n c : Nat) (src : Nat → Float) (h : c ≤ m * n) :
    (mxGetPr (doubleMatrix m n (copied c (m * n) src))).length = m * n := by
  simp only [mxGetPr, doubleMatrix]
  exact copied_length c (m * n) src h

theorem copied_full (total : Nat) (src : Nat → Float) :
    copied total total src = (List.range total).map src := by
  simp [copied]

theorem copied_none (total : Nat) (src : Nat → Float) :
    copied 0 total src = List.replicate total 0 := by
  simp [copied]

theorem printVerbose_eq (p : Locals) (w : World) :
    printVerbose p.verb p.N1 p.N2 p.K p.medoid p.sigma p.tau w =
      { w with printed := w.printed ++ (if p.verb ≠ 0 then report p else []) } := by
  by_cases hv : p.verb = 0
  · simp [printVerbose, hv]
  · simp [printVerbose, hv, mexPrintf, verboseLines, report]

/-- The job runs to its end whenever the loop and the two `memcpy` stay within
the matrices. -/
theorem doJobWith_eq (lib : VlQSLib) (p : Locals) (bound : Int) (nbytes : Nat) (w : World)
    (hloop : bound.toNat ≤ p.N1 * p.N2) (hcopy : nbytes / sizeof_double ≤ p.N1 * p.N2) :
    doJobWith lib p bound nbytes w
      = (afterJobWith lib p bound.toNat (nbytes / sizeof_double) w, none) := by
  unfold doJobWith
  simp only [mxCreateDoubleMatrix, assignOut, vl_quickshift_new, vl_quickshift_get_parents,
    vl_quickshift_get_dists, vl_quickshift_get_density, libCall, printVerbose_eq, copyParents]
  rw [copyParents_eq w.brk _ _
    { classID := mxClassID.mxDOUBLE_CLASS, complexity := mxComplexity.mxREAL, d0 := p.N1,
      d1 := p.N2, more := [], pr := List.replicate (p.N1 * p.N2) 0, text := "" }
    (by simp) _ (by simpa using hloop)]
  simp only []
  rw [memcpy_eq (w.brk + 1) _ _ _
    { classID := mxClassID.mxDOUBLE_CLASS, complexity := mxComplexity.mxREAL, d0 := p.N1,
      d1 := p.N2, more := [], pr := List.replicate (p.N1 * p.N2) 0, text := "" }
    (by simp) (by simpa using hcopy)]
  simp only []
  rw [memcpy_eq (w.brk + 1 + 1) _ _ _
    { classID := mxClassID.mxDOUBLE_CLASS, complexity := mxComplexity.mxREAL, d0 := p.N1,
      d1 := p.N2, more := [], pr := List.replicate (p.N1 * p.N2) 0, text := "" }
    (by simp; intro h; omega) (by simpa using hcopy)]
  simp only [afterJobWith, libCall, Prod.mk.injEq, and_true]
  congr 1
  · have e1 : ¬ w.brk = w.brk + 1 + 1 := by omega
    have e2 : ¬ w.brk + 1 + 1 = w.brk := by omega
    have e3 : ¬ w.brk + 1 + 1 = w.brk + 1 := by omega
    have e4 : w.brk + 2 = w.brk + 1 + 1 := rfl
    funext a
    by_cases h0 : a = w.brk
    · simp [h0, e1, doubleMatrix, parentsOf, jobCalls, handleOf, copied]
    · by_cases h1 : a = w.brk + 1
      · simp [h1, doubleMatrix, distsOf, jobCalls, handleOf, copied]
      · by_cases h2 : a = w.brk + 1 + 1
        · simp [h2, e2, e3, e4, doubleMatrix, densityOf, jobCalls, handleOf, copied]
        · simp [h0, h1, h2, e4]
  · funext s
    by_cases h0 : s = OUT_PARENTS
    · simp [h0]
    · by_cases h1 : s = OUT_DISTS
      · simp [h1]
      · by_cases h2 : s = OUT_DENSITY
        · simp [h2]
        · simp [h0, h1, h2]
  · simp [jobCalls, handleOf]

/-- The job always runs to its end, and leaves the world `afterJob`. -/
theorem doJob_eq (lib : VlQSLib) (p : Locals) (w : World) :
    doJob lib p w = (afterJob lib p w, none) :=
  doJobWith_eq lib p _ _ w (loopCount_le p) (memcpyCount_le p)

theorem checkArguments_ok_iff (nout : Nat) (ins : List mxArray) (img : mxArray) :
    checkArguments nout ins = Except.ok img ↔
      2 ≤ ins.length ∧ nout ≤ 3 ∧ ins[IN_I]? = some img ∧
      mxGetNumberOfDimensions img ≤ 3 ∧ mxGetClassID img = mxClassID.mxDOUBLE_CLASS := by
  unfold checkArguments
  by_cases h1 : ins.length < 2
  · simp [h1]
  · by_cases h2 : nout > 3
    · simp [h1, h2]
    · cases h0 : ins[IN_I]? with
      | none =>
        simp [h1, h2, h0]
      | some im =>
        by_cases h3 : mxGetNumberOfDimensions im > 3
        · simp [h1, h2, h0, h3]
          intro _ _ e; rw [← e]; omega
        · by_cases h4 : mxGetClassID im = mxClassID.mxDOUBLE_CLASS
          · simp [h1, h2, h0, h3, h4]
            constructor
            · intro e; subst e
              exact ⟨by omega, by omega, rfl, by omega, h4⟩
            · intro h; exact h.2.2.1
          · simp [h1, h2, h0, h3, h4]
            intro _ _ e _; rw [← e]; exact h4

/-- What acceptance means in terms of the arguments, and what the locals are
then. -/
theorem accepted_iff (nout : Nat) (ins : List mxArray) (p : Locals) :
    Accepted nout ins p ↔
      ∃ img, checkArguments nout ins = Except.ok img ∧
        derefPr ins IN_SIGMA = some p.sigma ∧
        (if ins.length > 2 then derefPr ins IN_TAU else some (3 * p.sigma)) = some p.tau ∧
        scanOptions (namedOptions ins) 0 0 = Except.ok (p.medoid, p.verb) ∧
        p.I = mxGetPr img ∧ p.N1 = img.d0 ∧ p.N2 = img.d1 ∧
        p.K = (if mxGetNumberOfDimensions img = 3 then img.more.getD 0 0 else 1) := by
  unfold Accepted resolve
  cases hc : checkArguments nout ins with
  | error e => simp
  | ok img =>
    simp only [Except.ok.injEq, exists_eq_left']
    have hloop := optionLoop_eq_scan ins (ins.length + 1) IN_END 0 0 (by omega)
    simp only [extractParameters, hloop]
    cases hs : derefPr ins IN_SIGMA with
    | none => simp
    | some sigma =>
      cases ht : (if ins.length > 2 then derefPr ins IN_TAU else some (3 * sigma)) with
      | none =>
        simp only [ht]
        simp
        intro e
        rw [← e, ht]
        simp
      | some tau =>
        simp only [ht]
        cases ho : scanOptions (List.drop IN_END ins) 0 0 with
        | error e => simp [namedOptions, ho]
        | ok mv =>
          obtain ⟨m, v⟩ := mv
          simp only [namedOptions, ho, mxGetDimensions, mxGetPr]
          constructor
          · intro e
            cases e
            simp [ht]
          · rintro ⟨h1, h2, h3, h4, h5, h6, h7⟩
            cases p
            simp at h1 h2 h3 h4 h5 h6 h7 ⊢
            subst h1
            rw [ht] at h2
            simp at h2
            simp [h2, h3, h4, h5, h6, h7]

/-- An accepted call does the job to its end. -/
theorem mexFunction_accepted (lib : VlQSLib) (nout : Nat) (ins : List mxArray) (p : Locals)
    (w : World) (h : Accepted nout ins p) :
    mexFunction lib nout ins w = (afterJob lib p w, none) := by
  unfold Accepted resolve at h
  unfold mexFunction
  cases hc : checkArguments nout ins with
  | error e => rw [hc] at h; cases h
  | ok img =>
    rw [hc] at h
    simp only at h ⊢
    rw [h]
    exact doJob_eq lib p w

/-- A call that is not accepted ends with the world as it found it. -/
theorem mexFunction_not_accepted (lib : VlQSLib) (nout : Nat) (ins : List mxArray) (e : Abort)
    (w : World) (h : resolve nout ins = Except.error e) :
    mexFunction lib nout ins w = (w, some e) := by
  unfold resolve at h
  unfold mexFunction
  cases hc : checkArguments nout ins with
  | error e1 => rw [hc] at h; cases h; rfl
  | ok img =>
    rw [hc] at h
    simp only at h ⊢
    rw [h]

theorem trace_accepted (lib : VlQSLib) (nout : Nat) (ins : List mxArray) (p : Locals)
    (w : World) (h : Accepted nout ins p) :
    trace lib nout ins w = jobCalls p (handleOf lib p w) := by
  simp [trace, mexFunction_accepted lib nout ins p w h, afterJob, afterJobWith]

theorem printedBy_accepted (lib : VlQSLib) (nout : Nat) (ins : List mxArray) (p : Locals)
    (w : World) (h : Accepted nout ins p) :
    printedBy lib nout ins w = if p.verb ≠ 0 then report p else [] := by
  simp [printedBy, mexFunction_accepted lib nout ins p w h, afterJob, afterJobWith]

theorem checkArguments_error_iff (nout : Nat) (ins : List mxArray) :
    (∃ msg, checkArguments nout ins = Except.error (Abort.error msg)) ↔
      InvalidArguments nout ins := by
  unfold InvalidArguments checkArguments
  by_cases h1 : ins.length < 2
  · simp [h1]
  · by_cases h2 : nout > 3
    · simp [h1, h2]
    · cases h0 : ins[IN_I]? with
      | none =>
        have : ins.length ≤ 0 := List.getElem?_eq_none_iff.mp h0
        omega
      | some im =>
        by_cases h3 : mxGetNumberOfDimensions im > 3
        · simp [h1, h2, h0, h3]
        · by_cases h4 : mxGetClassID im = mxClassID.mxDOUBLE_CLASS
          · simp [h1, h2, h0, h3, h4]
          · simp [h1, h2, h0, h3, h4]

theorem checkArguments_ok_of_valid (nout : Nat) (ins : List mxArray)
    (h : ¬ InvalidArguments nout ins) :
    ∃ img, ins[IN_I]? = some img ∧ checkArguments nout ins = Except.ok img := by
  unfold InvalidArguments at h
  simp only [not_or, not_exists, not_and, not_lt, gt_iff_lt, not_not] at h
  obtain ⟨h1, h2, h3⟩ := h
  have hlt : IN_I < ins.length := by
    show 0 < ins.length
    omega
  refine ⟨ins[IN_I], List.getElem?_eq_getElem hlt, ?_⟩
  have h4 := h3 ins[IN_I] (List.getElem?_eq_getElem hlt)
  exact (checkArguments_ok_iff nout ins _).mpr
    ⟨h1, h2, List.getElem?_eq_getElem hlt, h4.1, h4.2⟩

theorem derefPr_eq_some (ins : List mxArray) (k : Nat) (x : Float)
    (h : derefPr ins k = some x) :
    ∃ a, ins[k]? = some a ∧ (mxGetPr a).head? = some x := by
  unfold derefPr at h
  cases hk : ins[k]? with
  | none => rw [hk] at h; cases h
  | some a => rw [hk] at h; exact ⟨a, rfl, h⟩

theorem accepted_callTwoInputs : Accepted 1 callTwoInputs localsTwoInputs := rfl

theorem accepted_callWithOptions : Accepted 0 callWithOptions localsWithOptions := rfl

theorem accepted_callOptionAfterSigma :
    Accepted 0 callOptionAfterSigma localsOptionAfterSigma := rfl

/-- The slots and arrays an accepted call leaves: slot `k` (for `k` below 3)
refers to the `k`-th array created by the call, a real double matrix of the
extent `N1` by `N2`. -/
theorem output_accepted (lib : VlQSLib) (nout : Nat) (ins : List mxArray) (p : Locals)
    (w : World) (h : Accepted nout ins p) :
    output lib nout ins w OUT_PARENTS =
      some (doubleMatrix p.N1 p.N2
        (copied (loopCount p) (p.N1 * p.N2) (fun i => Float.ofInt (parentsOf lib p w i)))) ∧
    output lib nout ins w OUT_DISTS =
      some (doubleMatrix p.N1 p.N2 (copied (memcpyCount p) (p.N1 * p.N2) (distsOf lib p w))) ∧
    output lib nout ins w OUT_DENSITY =
      some (doubleMatrix p.N1 p.N2
        (copied (memcpyCount p) (p.N1 * p.N2) (densityOf lib p w))) := by
  have e1 : ¬ w.brk + 1 = w.brk := by omega
  have e2 : ¬ w.brk + 2 = w.brk := by omega
  have e3 : ¬ w.brk + 2 = w.brk + 1 := by omega
  simp [output, mexFunction_accepted lib nout ins p w h, afterJob, afterJobWith, e1, e2, e3]

theorem scan_medoid_verb (ins : List mxArray) (m v : Nat)
    (h : scanOptions (namedOptions ins) 0 0 = Except.ok (m, v)) :
    (∀ a ∈ namedOptions ins, recognized a = true) ∧
    m = (if (namedOptions ins).any (isOption "Medoid") = true then 1 else 0) ∧
    v = (namedOptions ins).countP (isOption "Verbose") := by
  have h1 := (scanOptions_ok_iff (namedOptions ins) 0 0 m v).mp h
  simpa using h1

theorem output_dims (lib : VlQSLib) (nout : Nat) (ins : List mxArray) (p : Locals)
    (w : World) (h : Accepted nout ins p) (slot : Nat) (hslot : slot < 3) :
    (output lib nout ins w slot).map mxGetDimensions = some [p.N1, p.N2] := by
  obtain ⟨h0, h1, h2⟩ := output_accepted lib nout ins p w h
  have hcases : slot = OUT_PARENTS ∨ slot = OUT_DISTS ∨ slot = OUT_DENSITY := by
    show slot = 0 ∨ slot = 1 ∨ slot = 2
    omega
  rcases hcases with e | e | e
  · rw [e, h0]; rfl
  · rw [e, h1]; rfl
  · rw [e, h2]; rfl

theorem accepted_image (nout : Nat) (ins : List mxArray) (p : Locals)
    (h : Accepted nout ins p) :
    ∃ img, ins[IN_I]? = some img ∧ mxGetNumberOfDimensions img ≤ 3 ∧
      mxGetClassID img = mxClassID.mxDOUBLE_CLASS ∧
      p.I = mxGetPr img ∧ p.N1 = img.d0 ∧ p.N2 = img.d1 ∧
      p.K = (if mxGetNumberOfDimensions img = 3 then img.more.getD 0 0 else 1) := by
  obtain ⟨img, hc, _, _, _, hI, h1, h2, hK⟩ := (accepted_iff nout ins p).mp h
  obtain ⟨_, _, h0, hd, hcl⟩ := (checkArguments_ok_iff nout ins img).mp hc
  exact ⟨img, h0, hd, hcl, hI, h1, h2, hK⟩

theorem scanOptions_ne_exhausted (l : List mxArray) :
    ∀ (m v : Nat), scanOptions l m v ≠ Except.error Abort.exhausted := by
  induction l with
  | nil => intro m v; simp [scanOptions]
  | cons a rest ih =>
    intro m v
    unfold scanOptions
    split
    · simp
    · split
      · exact ih 1 v
      · split
        · exact ih m (v + 1)
        · simp

/-- The iteration budget of the option loop is never what ends a call. -/
theorem resolve_ne_exhausted (nout : Nat) (ins : List mxArray) :
    resolve nout ins ≠ Except.error Abort.exhausted := by
  unfold resolve
  cases hc : checkArguments nout ins with
  | error e =>
    intro he
    simp only [Except.error.injEq] at he
    subst he
    unfold checkArguments at hc
    by_cases h1 : ins.length < 2
    · simp [h1] at hc
    · by_cases h2 : nout > 3
      · simp [h1, h2] at hc
      · cases h0 : ins[IN_I]? with
        | none => simp [h1, h2, h0] at hc
        | some im =>
          by_cases h3 : mxGetNumberOfDimensions im > 3
          · simp [h1, h2, h0, h3] at hc
          · by_cases h4 : mxGetClassID im = mxClassID.mxDOUBLE_CLASS
            · simp [h1, h2, h0, h3, h4] at hc
            · simp [h1, h2, h0, h3, h4] at hc
  | ok img =>
    have hloop := optionLoop_eq_scan ins (ins.length + 1) IN_END 0 0 (by omega)
    simp only [extractParameters, hloop]
    split
    · simp
    · split
      · simp
      · split
        · rename_i e he
          intro hx
          simp only [Except.error.injEq] at hx
          rw [hx] at he
          exact scanOptions_ne_exhausted _ 0 0 he
        · simp

/-- A call returns exactly when it is accepted. -/
theorem returns_iff_accepted (lib : VlQSLib) (nout : Nat) (ins : List mxArray) (w : World) :
    (mexFunction lib nout ins w).2 = none ↔ ∃ p, Accepted nout ins p := by
  constructor
  · intro h
    cases hr : resolve nout ins with
    | error e =>
      rw [mexFunction_not_accepted lib nout ins e w hr] at h
      cases h
    | ok p => exact ⟨p, hr⟩
  · rintro ⟨p, hp⟩
    rw [mexFunction_accepted lib nout ins p w hp]

theorem accepted_callComplex : Accepted 1 callComplex localsTwoInputs := rfl

theorem accepted_callHuge : Accepted 3 callHuge localsHuge := rfl

/-- On the locals of `callHuge` the `int` product of line 139 is `-2^31`: the
loop makes no iteration. -/
theorem loopCount_localsHuge : loopCount localsHuge = 0 := by
  unfold loopCount wrapInt localsHuge
  simp only []
  omega

/-- On the locals of `callHuge` each `memcpy` copies all `2^31` doubles. -/
theorem memcpyCount_localsHuge : memcpyCount localsHuge = 65536 * 32768 := by
  unfold memcpyCount wrapSize sizeof_double localsHuge
  simp only []

/-- Within the range of `int`, that is when `N1 * N2` is at most `INT_MAX`, an
accepted call leaves three outputs of exactly `N1 * N2` elements: element `i`
of parents is the integer `parentsi[i]` of the buffer that
`vl_quickshift_get_parents` returned, converted to a double, and element `i`
of dists and of density is element `i` of the buffer that
`vl_quickshift_get_dists`, respectively `vl_quickshift_get_density`,
returned. -/
theorem copied_results_in_range (lib : VlQSLib) (nout : Nat) (ins : List mxArray)
    (p : Locals) (w : World) (h : Accepted nout ins p) (hle : p.N1 * p.N2 ≤ INT_MAX) :
    ∃ parents dists density,
      output lib nout ins w OUT_PARENTS = some parents ∧
      output lib nout ins w OUT_DISTS = some dists ∧
      output lib nout ins w OUT_DENSITY = some density ∧
      (mxGetPr parents).length = p.N1 * p.N2 ∧
      (mxGetPr dists).length = p.N1 * p.N2 ∧
      (mxGetPr density).length = p.N1 * p.N2 ∧
      ∀ i, i < p.N1 * p.N2 →
        (mxGetPr parents)[i]? =
          some (Float.ofInt (lib.parents (w.calls ++ (trace lib nout ins w).take 6) i)) ∧
        (mxGetPr dists)[i]? = some (lib.dists (w.calls ++ (trace lib nout ins w).take 7) i) ∧
        (mxGetPr density)[i]? =
          some (lib.density (w.calls ++ (trace lib nout ins w).take 8) i) := by
  obtain ⟨o0, o1, o2⟩ := output_accepted lib nout ins p w h
  have ht := trace_accepted lib nout ins p w h
  rw [loopCount_eq p hle, copied_full] at o0
  rw [memcpyCount_eq p hle, copied_full] at o1 o2
  refine ⟨_, _, _, o0, o1, o2, ?_, ?_, ?_, ?_⟩
  · simp [mxGetPr, doubleMatrix]
  · simp [mxGetPr, doubleMatrix]
  · simp [mxGetPr, doubleMatrix]
  · intro i hlt
    rw [ht]
    simp [mxGetPr, doubleMatrix, List.getElem?_range hlt, parentsOf, distsOf, densityOf]

/-! ## The properties of the specification -/

/-- C1, as stated, fails on `vl_quickshift(I, 2)` with a complex double `I`:
the element type of the image is not double-precision real, and yet the
checks do not end the call: it is accepted and returns. -/
theorem c1_counterexample :
    (∃ img, callComplex[IN_I]? = some img ∧ ¬ isRealDouble img) ∧
    (¬ ∃ msg, checkArguments 1 callComplex = Except.error (Abort.error msg)) ∧
    Accepted 1 callComplex localsTwoInputs ∧
    (mexFunction sampleLib 1 callComplex emptyWorld).2 = none := by
  have hok : checkArguments 1 callComplex = Except.ok imageComplex := rfl
  refine ⟨⟨imageComplex, rfl, ?_⟩, ?_, accepted_callComplex, ?_⟩
  · intro hreal
    have hc : mxComplexity.mxCOMPLEX = mxComplexity.mxREAL := hreal.2
    cases hc
  · rintro ⟨msg, hmsg⟩
    rw [hok] at hmsg
    cases hmsg
  · rw [mexFunction_accepted sampleLib 1 callComplex localsTwoInputs emptyWorld
      accepted_callComplex]

/-- C1, amended: the checks on the arguments end the call with a fatal error
exactly when there are fewer than two inputs, more than three outputs are
requested, the image has more than three dimensions, or the class of the image
is not double, whether the image is real or complex; the call then ends with
that error. When none of the four holds the checks pass with the image, and
the call goes on to take the parameters. -/
theorem c1_validation (lib : VlQSLib) (nout : Nat) (ins : List mxArray) (w : World) :
    ((∃ msg, checkArguments nout ins = Except.error (Abort.error msg)) ↔
        InvalidArguments nout ins) ∧
    (InvalidArguments nout ins →
        ∃ msg, (mexFunction lib nout ins w).2 = some (Abort.error msg)) ∧
    (¬ InvalidArguments nout ins →
        ∃ img, ins[IN_I]? = some img ∧ checkArguments nout ins = Except.ok img ∧
          mexFunction lib nout ins w =
            match extractParameters ins img with
            | Except.error e => (w, some e)
            | Except.ok p => doJob lib p w) := by
  refine ⟨checkArguments_error_iff nout ins, ?_, ?_⟩
  · intro h
    obtain ⟨msg, hmsg⟩ := (checkArguments_error_iff nout ins).mpr h
    exact ⟨msg, by simp [mexFunction, hmsg]⟩
  · intro h
    obtain ⟨img, h0, hc⟩ := checkArguments_ok_of_valid nout ins h
    exact ⟨img, h0, hc, by simp [mexFunction, hc]⟩

/-- C1 on two calls: the one with the 4-D image is rejected with a message,
the one with two well-formed inputs passes the checks. -/
theorem c1_validation_witness :
    (∃ msg, checkArguments 1 callFourD = Except.error (Abort.error msg)) ∧
    (∃ img, checkArguments 1 callTwoInputs = Except.ok img) := by
  have hbad : InvalidArguments 1 callFourD :=
    Or.inr (Or.inr ⟨image4D, rfl, Or.inl (by decide)⟩)
  have hgood : ¬ InvalidArguments 1 callTwoInputs := by
    rintro (h | h | ⟨img, hi, h⟩)
    · exact absurd h (by decide)
    · exact absurd h (by decide)
    · have e : image2D = img := Option.some.inj hi
      subst e
      rcases h with h | h
      · exact absurd h (by decide)
      · exact h rfl
  obtain ⟨img, _, hc, _⟩ := (c1_validation sampleLib 1 callTwoInputs emptyWorld).2.2 hgood
  exact ⟨(c1_validation sampleLib 1 callFourD emptyWorld).1.mpr hbad, img, hc⟩

/-- C2: a call that the checks on the arguments reject changes nothing: the
output slots, the created arrays, the printed lines and the calls made on the
library are what they were before, so no slot is assigned, no matrix is
allocated, nothing is printed and no library function is called. -/
theorem c2_rejected_no_effect (lib : VlQSLib) (nout : Nat) (ins : List mxArray) (w : World)
    (h : InvalidArguments nout ins) :
    (∃ msg, (mexFunction lib nout ins w).2 = some (Abort.error msg)) ∧
    (mexFunction lib nout ins w).1.out = w.out ∧
    (mexFunction lib nout ins w).1.heap = w.heap ∧
    (mexFunction lib nout ins w).1.brk = w.brk ∧
    (mexFunction lib nout ins w).1.printed = w.printed ∧
    (mexFunction lib nout ins w).1.calls = w.calls ∧
    trace lib nout ins w = [] ∧ printedBy lib nout ins w = [] := by
  obtain ⟨msg, hmsg⟩ := (checkArguments_error_iff nout ins).mpr h
  have hr : resolve nout ins = Except.error (Abort.error msg) := by simp [resolve, hmsg]
  have hm := mexFunction_not_accepted lib nout ins _ w hr
  refine ⟨⟨msg, by rw [hm]⟩, ?_, ?_, ?_, ?_, ?_, ?_, ?_⟩ <;> simp [hm, trace, printedBy]

/-- C2 on the call with a 4-D image: it is rejected and no matrix is allocated. -/
theorem c2_rejected_no_effect_witness :
    InvalidArguments 1 callFourD ∧
    (mexFunction sampleLib 1 callFourD emptyWorld).1.brk = 0 ∧
    trace sampleLib 1 callFourD emptyWorld = [] :=
  have h : InvalidArguments 1 callFourD :=
    Or.inr (Or.inr ⟨image4D, rfl, Or.inl (by decide)⟩)
  ⟨h, (c2_rejected_no_effect sampleLib 1 callFourD emptyWorld h).2.2.2.1,
    (c2_rejected_no_effect sampleLib 1 callFourD emptyWorld h).2.2.2.2.2.2.1⟩

/-- C3: in an accepted call sigma is the first element of the second input and
is the one value handed to `vl_quickshift_set_sigma`; the one value handed to
`vl_quickshift_set_tau`, which is also the value on the tau line of the
verbose report, is `3 * sigma` when there are exactly two inputs and the first
element of the third input when there are more. -/
theorem c3_tau_default (lib : VlQSLib) (nout : Nat) (ins : List mxArray) (p : Locals)
    (w : World) (h : Accepted nout ins p) :
    (∃ a, ins[IN_SIGMA]? = some a ∧ (mxGetPr a).head? = some p.sigma) ∧
    sigmaPassed (trace lib nout ins w) = [p.sigma] ∧
    tauPassed (trace lib nout ins w) = [p.tau] ∧
    (∀ line ∈ printedBy lib nout ins w,
        line.1 = "quickshift: tau:     %g\n" → line.2 = [PrintfArg.dbl p.tau]) ∧
    (ins.length = 2 → p.tau = 3 * p.sigma) ∧
    (ins.length > 2 → ∃ a, ins[IN_TAU]? = some a ∧ (mxGetPr a).head? = some p.tau) := by
  obtain ⟨img, _, hs, ht, _⟩ := (accepted_iff nout ins p).mp h
  refine ⟨derefPr_eq_some ins IN_SIGMA p.sigma hs, ?_, ?_, ?_, ?_, ?_⟩
  · rw [trace_accepted lib nout ins p w h]; rfl
  · rw [trace_accepted lib nout ins p w h]; rfl
  · rw [printedBy_accepted lib nout ins p w h]
    intro line hl hfmt
    by_cases hv : p.verb = 0
    · simp [hv] at hl
    · simp only [ne_eq, hv, not_false_eq_true, if_true, report, verboseLines, List.mem_cons,
        List.mem_singleton, List.not_mem_nil, or_false] at hl
      rcases hl with hl | hl | hl | hl <;> subst hl <;> first | rfl | (simp at hfmt)
  · intro h2
    have h3 : ¬ ins.length > 2 := by omega
    simp only [h3, if_false, Option.some.injEq] at ht
    exact ht.symm
  · intro h2
    simp only [h2, if_true] at ht
    exact derefPr_eq_some ins IN_TAU p.tau ht

/-- C3 on `vl_quickshift(I, 2)`: tau is `3 * 2`. -/
theorem c3_tau_default_witness :
    Accepted 1 callTwoInputs localsTwoInputs ∧
    tauPassed (trace sampleLib 1 callTwoInputs emptyWorld) = [3 * 2.0] :=
  ⟨accepted_callTwoInputs,
    (c3_tau_default sampleLib 1 callTwoInputs localsTwoInputs emptyWorld
      accepted_callTwoInputs).2.2.1⟩

/-- C4: an accepted call, whatever the number of outputs requested, creates
exactly three arrays and assigns them to the slots 0 (parents), 1 (dists) and
2 (density), leaving every other slot alone; each of the three is a real
double matrix whose dimensions are the first two dimensions of the image. So
two accepted calls whose images agree in their first two dimensions produce
outputs of the same dimensions. -/
theorem c4_output_shapes (lib : VlQSLib) (nout : Nat) (ins : List mxArray) (p : Locals)
    (w : World) (h : Accepted nout ins p) :
    ∃ img, ins[IN_I]? = some img ∧
      (mexFunction lib nout ins w).1.brk = w.brk + 3 ∧
      (mexFunction lib nout ins w).1.out OUT_PARENTS = some w.brk ∧
      (mexFunction lib nout ins w).1.out OUT_DISTS = some (w.brk + 1) ∧
      (mexFunction lib nout ins w).1.out OUT_DENSITY = some (w.brk + 2) ∧
      (∀ slot, 3 ≤ slot → (mexFunction lib nout ins w).1.out slot = w.out slot) ∧
      (∀ slot, slot < 3 → ∃ arr, output lib nout ins w slot = some arr ∧
        mxGetClassID arr = mxClassID.mxDOUBLE_CLASS ∧ arr.complexity = mxComplexity.mxREAL ∧
        mxGetDimensions arr = [img.d0, img.d1] ∧ (mxGetPr arr).length = img.d0 * img.d1) ∧
      (∀ (lib2 : VlQSLib) (nout2 : Nat) (ins2 : List mxArray) (p2 : Locals) (w2 : World)
          (img2 : mxArray),
        Accepted nout2 ins2 p2 → ins2[IN_I]? = some img2 →
        img2.d0 = img.d0 → img2.d1 = img.d1 →
        ∀ slot, slot < 3 →
          (output lib2 nout2 ins2 w2 slot).map mxGetDimensions
            = (output lib nout ins w slot).map mxGetDimensions) := by
  obtain ⟨img, hi, _, _, _, h1, h2, _⟩ := accepted_image nout ins p h
  have hm := mexFunction_accepted lib nout ins p w h
  refine ⟨img, hi, ?_, ?_, ?_, ?_, ?_, ?_, ?_⟩
  · rw [hm]; rfl
  · rw [hm]; rfl
  · rw [hm]; rfl
  · rw [hm]; rfl
  · intro slot hslot
    rw [hm]
    have e0 : ¬ slot = OUT_PARENTS := by show ¬ slot = 0; omega
    have e1 : ¬ slot = OUT_DISTS := by show ¬ slot = 1; omega
    have e2 : ¬ slot = OUT_DENSITY := by show ¬ slot = 2; omega
    simp [afterJob, afterJobWith, e0, e1, e2]
  · intro slot hslot
    obtain ⟨o0, o1, o2⟩ := output_accepted lib nout ins p w h
    have hcases : slot = OUT_PARENTS ∨ slot = OUT_DISTS ∨ slot = OUT_DENSITY := by
      show slot = 0 ∨ slot = 1 ∨ slot = 2
      omega
    rcases hcases with e | e | e
    · rw [e, o0]
      exact ⟨_, rfl, rfl, rfl, by rw [← h1, ← h2]; rfl,
        by rw [← h1, ← h2]; exact doubleMatrix_length _ _ _ _ (loopCount_le p)⟩
    · rw [e, o1]
      exact ⟨_, rfl, rfl, rfl, by rw [← h1, ← h2]; rfl,
        by rw [← h1, ← h2]; exact doubleMatrix_length _ _ _ _ (memcpyCount_le p)⟩
    · rw [e, o2]
      exact ⟨_, rfl, rfl, rfl, by rw [← h1, ← h2]; rfl,
        by rw [← h1, ← h2]; exact doubleMatrix_length _ _ _ _ (memcpyCount_le p)⟩
  · intro lib2 nout2 ins2 p2 w2 img2 hacc hi2 hd0 hd1 slot hslot
    obtain ⟨img3, hi3, _, _, _, h12, h22, _⟩ := accepted_image nout2 ins2 p2 hacc
    rw [hi2] at hi3
    cases hi3
    rw [output_dims lib2 nout2 ins2 p2 w2 hacc slot hslot,
      output_dims lib nout ins p w h slot hslot, h1, h2, h12, h22, hd0, hd1]

/-- C4 on a call with one output requested: three arrays are created and the
density slot holds the third. -/
theorem c4_output_shapes_witness :
    Accepted 1 callTwoInputs localsTwoInputs ∧
    (mexFunction sampleLib 1 callTwoInputs emptyWorld).1.brk = 3 ∧
    (mexFunction sampleLib 1 callTwoInputs emptyWorld).1.out OUT_DENSITY = some 2 := by
  obtain ⟨img, _, hb, _, _, hd, _⟩ :=
    c4_output_shapes sampleLib 1 callTwoInputs localsTwoInputs emptyWorld accepted_callTwoInputs
  exact ⟨accepted_callTwoInputs, hb, hd⟩

/-- C6, as stated, fails on `vl_quickshift(I, 2, 'Medoid')`: the call is
accepted, its third input is the option name `Medoid` given directly after
sigma, and yet the value handed to `vl_quickshift_set_medoid` is 0, not 1, and
the value handed to `vl_quickshift_set_tau` is the first double of the data
of the name, not one computed from sigma. -/
theorem c6_counterexample :
    Accepted 0 callOptionAfterSigma localsOptionAfterSigma ∧
    callOptionAfterSigma.length = 3 ∧
    (∃ a, callOptionAfterSigma[IN_TAU]? = some a ∧ isOption "Medoid" a = true ∧
      tauPassed (trace sampleLib 0 callOptionAfterSigma emptyWorld) = (mxGetPr a).take 1) ∧
    medoidPassed (trace sampleLib 0 callOptionAfterSigma emptyWorld) = [0] ∧
    ¬ medoidPassed (trace sampleLib 0 callOptionAfterSigma emptyWorld) = [1] := by
  have ht := trace_accepted sampleLib 0 callOptionAfterSigma localsOptionAfterSigma emptyWorld
    accepted_callOptionAfterSigma
  refine ⟨accepted_callOptionAfterSigma, rfl, ⟨charArray "Medoid" [1e-300], rfl, by decide, ?_⟩,
    ?_, ?_⟩
  · rw [ht]; rfl
  · rw [ht]; rfl
  · rw [ht]
    intro hc
    have : ([0] : List Nat) = [1] := hc
    cases this

/-- C6, amended: the named options are read from the fourth input on. In an
accepted call a third input, whatever it is, is taken as tau: the value handed
to `vl_quickshift_set_tau` is its first element, and is `3 * sigma` only when
there are exactly two inputs. `Medoid` is handed over as 1 exactly when an
input from the fourth on is the option `Medoid`, and the call prints exactly
when one of them is the option `Verbose`; with at most three inputs no option
is recognised: 0 is handed over and nothing is printed. -/
theorem c6_options_follow_tau (lib : VlQSLib) (nout : Nat) (ins : List mxArray) (p : Locals)
    (w : World) (h : Accepted nout ins p) :
    tauPassed (trace lib nout ins w) = [p.tau] ∧
    (ins.length > 2 → ∃ a, ins[IN_TAU]? = some a ∧ (mxGetPr a).head? = some p.tau) ∧
    (ins.length = 2 → p.tau = 3 * p.sigma) ∧
    (medoidPassed (trace lib nout ins w) = [1] ↔
      ∃ a ∈ ins.drop 3, isOption "Medoid" a = true) ∧
    (printedBy lib nout ins w ≠ [] ↔ ∃ a ∈ ins.drop 3, isOption "Verbose" a = true) ∧
    (ins.length ≤ 3 →
      medoidPassed (trace lib nout ins w) = [0] ∧ printedBy lib nout ins w = []) := by
  obtain ⟨_, _, hs, ht, ho, _⟩ := (accepted_iff nout ins p).mp h
  obtain ⟨_, hm, hv⟩ := scan_medoid_verb ins p.medoid p.verb ho
  have htr := trace_accepted lib nout ins p w h
  have hp := printedBy_accepted lib nout ins p w h
  have hmp : medoidPassed (trace lib nout ins w) = [p.medoid] := by rw [htr]; rfl
  have hrep : report p ≠ [] := by simp [report, verboseLines]
  refine ⟨by rw [htr]; rfl, ?_, ?_, ?_, ?_, ?_⟩
  · intro h2
    simp only [h2, if_true] at ht
    exact derefPr_eq_some ins IN_TAU p.tau ht
  · intro h2
    have h3 : ¬ ins.length > 2 := by omega
    simp only [h3, if_false, Option.some.injEq] at ht
    exact ht.symm
  · rw [hmp, hm]
    by_cases hany : (namedOptions ins).any (isOption "Medoid") = true
    · simp only [hany, if_true, true_iff]
      exact List.any_eq_true.mp hany
    · simp only [hany]
      constructor
      · intro hc; simp at hc
      · intro hex
        exact absurd (List.any_eq_true.mpr hex) hany
  · rw [hp]
    by_cases hz : p.verb = 0
    · simp only [hz, ne_eq, not_true_eq_false, if_false, false_iff]
      intro hex
      have hpos := List.countP_pos_iff.mpr hex
      have hv2 : p.verb = (ins.drop 3).countP (isOption "Verbose") := hv
      omega
    · simp only [ne_eq, hz, not_false_eq_true, if_true, hrep, true_iff]
      have hv2 : p.verb = (ins.drop 3).countP (isOption "Verbose") := hv
      exact List.countP_pos_iff.mp (by omega)
  · intro h3
    have hnil : namedOptions ins = [] := List.drop_eq_nil_of_le (by show ins.length ≤ 3; exact h3)
    rw [hnil] at hm hv
    simp only [List.any_nil, Bool.false_eq_true, if_false, List.countP_nil] at hm hv
    rw [hmp, hp, hm, hv]
    simp

/-- C6, amended, on the call that gives tau before its options: `Medoid` is
recognised. -/
theorem c6_options_follow_tau_witness :
    Accepted 0 callWithOptions localsWithOptions ∧
    medoidPassed (trace sampleLib 0 callWithOptions emptyWorld) = [1] := by
  obtain ⟨_, _, _, h4, _⟩ :=
    c6_options_follow_tau sampleLib 0 callWithOptions localsWithOptions emptyWorld
      accepted_callWithOptions
  exact ⟨accepted_callWithOptions,
    h4.mpr ⟨charArray "Medoid" [], by simp [callWithOptions], by decide⟩⟩

/-- C7: in an accepted call the calls made on the library are, in this order,
`new`, `set_sigma`, `set_tau`, `set_medoid`, `process`, `get_parents`,
`get_dists`, `get_density` and `delete`, each of the last eight on the handle
that `new` returned, and the call returns. -/
theorem c7_call_sequence (lib : VlQSLib) (nout : Nat) (ins : List mxArray) (p : Locals)
    (w : World) (h : Accepted nout ins p) :
    ∃ q, q = lib.handle (w.calls ++ [QSCall.new p.I p.N1 p.N2 p.K]) ∧
      trace lib nout ins w =
        [ QSCall.new p.I p.N1 p.N2 p.K, QSCall.set_sigma q p.sigma, QSCall.set_tau q p.tau,
          QSCall.set_medoid q p.medoid, QSCall.process q, QSCall.get_parents q,
          QSCall.get_dists q, QSCall.get_density q, QSCall.delete q ] ∧
      (mexFunction lib nout ins w).1.calls = w.calls ++ trace lib nout ins w ∧
      (mexFunction lib nout ins w).2 = none := by
  refine ⟨handleOf lib p w, rfl, ?_, ?_, ?_⟩
  · rw [trace_accepted lib nout ins p w h]; rfl
  · rw [trace_accepted lib nout ins p w h, mexFunction_accepted lib nout ins p w h]; rfl
  · rw [mexFunction_accepted lib nout ins p w h]

/-- C7 on `vl_quickshift(I, 2)`: nine calls, and the call returns. -/
theorem c7_call_sequence_witness :
    Accepted 1 callTwoInputs localsTwoInputs ∧
    (trace sampleLib 1 callTwoInputs emptyWorld).length = 9 ∧
    (mexFunction sampleLib 1 callTwoInputs emptyWorld).2 = none := by
  obtain ⟨q, _, ht, _, hr⟩ :=
    c7_call_sequence sampleLib 1 callTwoInputs localsTwoInputs emptyWorld accepted_callTwoInputs
  exact ⟨accepted_callTwoInputs, by rw [ht]; rfl, hr⟩

/-- C8 on `vl_quickshift(I, 2)` for the empty 65536-by-32768-by-0 image, a
call that is accepted and returns: `N1*N2` is `2^31`, which the `int` of line
139 does not hold; the bound the loop sees is `-2^31`, so the loop stores
nothing and parents is left as it was created, `2^31` zeros, not the
converted `parentsi`. The two `memcpy`, which count in `size_t`, do copy all
`2^31` elements of dists and of density. -/
theorem c8_parents_not_copied :
    Accepted 3 callHuge localsHuge ∧
    (mexFunction sampleLib 3 callHuge emptyWorld).2 = none ∧
    wrapInt ((65536 : Int) * 32768) = -2147483648 ∧
    output sampleLib 3 callHuge emptyWorld OUT_PARENTS
      = some (doubleMatrix 65536 32768 (List.replicate (65536 * 32768) 0)) ∧
    output sampleLib 3 callHuge emptyWorld OUT_DISTS
      = some (doubleMatrix 65536 32768
          ((List.range (65536 * 32768)).map (distsOf sampleLib localsHuge emptyWorld))) ∧
    output sampleLib 3 callHuge emptyWorld OUT_DENSITY
      = some (doubleMatrix 65536 32768
          ((List.range (65536 * 32768)).map (densityOf sampleLib localsHuge emptyWorld))) := by
  obtain ⟨o0, o1, o2⟩ :=
    output_accepted sampleLib 3 callHuge localsHuge emptyWorld accepted_callHuge
  rw [loopCount_localsHuge, copied_none] at o0
  rw [memcpyCount_localsHuge] at o1 o2
  have hN : localsHuge.N1 * localsHuge.N2 = 65536 * 32768 := rfl
  rw [hN] at o0 o1 o2
  rw [copied_full] at o1 o2
  refine ⟨accepted_callHuge, ?_, ?_, o0, o1, o2⟩
  · rw [mexFunction_accepted sampleLib 3 callHuge localsHuge emptyWorld accepted_callHuge]
  · unfold wrapInt
    omega

/-- C9: in an accepted call `vl_quickshift_new` is called once, on the data of
the image itself, with the first dimension of the image as rows, the second
as columns, and as channels the third dimension when the image has three
dimensions and 1 when it has two; an accepted image has two or three. -/
theorem c9_new_arguments (lib : VlQSLib) (nout : Nat) (ins : List mxArray) (p : Locals)
    (w : World) (h : Accepted nout ins p) :
    ∃ img, ins[IN_I]? = some img ∧
      newPassed (trace lib nout ins w) = [(mxGetPr img, img.d0, img.d1, p.K)] ∧
      (mxGetDimensions img)[0]? = some img.d0 ∧ (mxGetDimensions img)[1]? = some img.d1 ∧
      (mxGetNumberOfDimensions img = 3 → (mxGetDimensions img)[2]? = some p.K) ∧
      (mxGetNumberOfDimensions img = 2 → p.K = 1) ∧
      (mxGetNumberOfDimensions img = 2 ∨ mxGetNumberOfDimensions img = 3) := by
  obtain ⟨img, hi, hd, _, hI, h1, h2, hK⟩ := accepted_image nout ins p h
  refine ⟨img, hi, ?_, by simp [mxGetDimensions], by simp [mxGetDimensions], ?_, ?_, ?_⟩
  · rw [trace_accepted lib nout ins p w h, ← hI, ← h1, ← h2]; rfl
  · intro h3
    simp only [h3, if_true] at hK
    have hl : img.more.length = 1 := by
      unfold mxGetNumberOfDimensions at h3; omega
    match hm : img.more, hl with
    | [k], _ =>
      rw [hm] at hK
      simp [mxGetDimensions, hm, hK]
  · intro h3
    have h4 : ¬ mxGetNumberOfDimensions img = 3 := by omega
    simp only [h4, if_false] at hK
    exact hK
  · unfold mxGetNumberOfDimensions at hd ⊢
    omega

/-- C9 on the two-channel image: the channel count handed over is 2. -/
theorem c9_new_arguments_witness :
    Accepted 0 callWithOptions localsWithOptions ∧
    newPassed (trace sampleLib 0 callWithOptions emptyWorld) = [(mxGetPr image3D, 2, 3, 2)] := by
  obtain ⟨img, hi, hn, _⟩ :=
    c9_new_arguments sampleLib 0 callWithOptions localsWithOptions emptyWorld
      accepted_callWithOptions
  have e : img = image3D := by
    have : some image3D = some img := hi
    cases this; rfl
  subst e
  exact ⟨accepted_callWithOptions, hn⟩

end VlQuickshift
